import Mathlib

/-!
Verification of the metadata-module aggregation core of
`src/target/source/source_module.cc`: classification of runtime modules into
source-embeddable and binary groups, aggregation of per-module symbol and
constant metadata, C source generation for the function registry, and the
leaf source-module save / serialize behaviour.
-/

set_option autoImplicit false

namespace SourceModule

/-- A runtime module as the aggregation driver sees it: its `type_key` and the
three optional capability queries that `GetFunction` may answer
(`get_symbol`, `get_const_vars`, `get_func_names`).  A `none` field models a
module whose `GetFunction` returns `nullptr` for that query. -/
structure Module where
  type_key : String
  get_symbol : Option String
  get_const_vars : Option (List String)
  get_func_names : Option (List String)
deriving DecidableEq, Repr

/-- Modelled from the spec: a raw tensor/array value of the constant table
(`runtime::NDArray`, outside `src/`); never interpreted by this system, so it
is kept opaque. -/
structure NDArrayData where
  bytes : List Nat
deriving DecidableEq, Repr

/-- The compilation target; the only attribute this core inspects is the
boolean `system-lib` flag (`target_->GetAttr<Bool>("system-lib")`,
defaulting to false). -/
structure Target where
  system_lib : Bool
deriving DecidableEq, Repr

/-- Predicate `DSOExportable` from `CreateMetadataModule`: a module is directly
linkable when its type key is `"llvm"` (native object) or `"c"`
(generated source). -/
def DSOExportable (mod : Module) : Bool :=
  mod.type_key == "llvm" || mod.type_key == "c"

/-- The combined metadata probe of the classification loop: both
`get_symbol` and `get_const_vars` must be supported
(`pf_sym != nullptr && pf_var != nullptr`); otherwise the probe fails. -/
def probeSymConst (mod : Module) : Option (String × List String) :=
  match mod.get_symbol, mod.get_const_vars with
  | some s, some vs => some (s, vs)
  | _, _ => none

/-- Count `sym_metadata.count(symbol)` on the aggregate metadata map, which we
represent as an association list in insertion order. -/
def symCount (sym_metadata : List (String × List String)) (s : String) : Nat :=
  (sym_metadata.filter (fun p => p.1 == s)).length

/-- The fatal error class of aggregation: `ICHECK_EQ(sym_metadata.count(symbol), 0U)
<< "Found duplicated symbol: " ...`. -/
inductive AggError where
  | duplicateSymbol (s : String)
deriving DecidableEq, Repr

/-- The mutable state of the classification loop in `CreateMetadataModule`:
the aggregate symbol metadata map and the two groups, each filled by
`push_back` in input order. -/
structure ClassState where
  sym_metadata : List (String × List String)
  csource_metadata_modules : List Module
  binary_metadata_modules : List Module
deriving DecidableEq, Repr

/-- The state at loop entry: everything empty. -/
def initClassState : ClassState := ⟨[], [], []⟩

/-- The classification loop of `CreateMetadataModule` (lines 67-95): probe
each module; on success record its symbol metadata (fatal on a duplicate
symbol) and place it in the binary group when its constant list is non-empty
or it is not DSO-exportable, otherwise in the source group; on probe failure
place it in the source group. -/
def classifyModules : List Module → ClassState → Except AggError ClassState
  | [], st => .ok st
  | mod :: rest, st =>
    match probeSymConst mod with
    | some sv =>
      if symCount st.sym_metadata sv.1 ≠ 0 then
        .error (.duplicateSymbol sv.1)
      else if !sv.2.isEmpty || !DSOExportable mod then
        classifyModules rest { st with
          sym_metadata := st.sym_metadata ++ [sv],
          binary_metadata_modules := st.binary_metadata_modules ++ [mod] }
      else
        classifyModules rest { st with
          sym_metadata := st.sym_metadata ++ [sv],
          csource_metadata_modules := st.csource_metadata_modules ++ [mod] }
    | none =>
      classifyModules rest { st with
        csource_metadata_modules := st.csource_metadata_modules ++ [mod] }

/-- Placement predicate read off the classification rule: a probed module
goes to the binary group when its required-constant list is non-empty or its
kind is not directly linkable; an unprobed module never does. -/
def binaryPlaced (mod : Module) : Bool :=
  match probeSymConst mod with
  | some sv => !sv.2.isEmpty || !DSOExportable mod
  | none => false

/-- Placement predicate for the source group: unprobed modules always land
there, probed ones exactly when their constant list is empty and their kind
is directly linkable. -/
def sourcePlaced (mod : Module) : Bool :=
  match probeSymConst mod with
  | some sv => sv.2.isEmpty && DSOExportable mod
  | none => true

/-- Concatenation of the texts produced for each element, in order; this is
the specification-side shape of the stream appends done in a loop. -/
def strConcatMap {α : Type} (f : α → String) : List α → String
  | [] => ""
  | x :: xs => f x ++ strConcatMap f xs

/-- Modelled from the spec: `GenerateFuncRegistryNames`
(`target/func_registry_generator`, not under `src/`): the function names
concatenated in a self-delimiting form, each name followed by a
terminating NUL byte. -/
def GenerateFuncRegistryNames (func_names : List String) : String :=
  strConcatMap (fun n => n ++ String.mk ['\x00']) func_names

/-- Three-digit octal escape used for a non-printable byte. -/
def octal3 (n : Nat) : String :=
  String.mk [Char.ofNat (48 + n / 64 % 8), Char.ofNat (48 + n / 8 % 8),
    Char.ofNat (48 + n % 8)]

/-- Modelled from the spec: `StrEscape` (`support/str_escape.h`, not under
`src/`): deterministic escaping of the name blob for embedding in a C string
literal.  Printable characters other than quote and backslash pass through;
quote, backslash and the common control characters get two-character
escapes; every other byte becomes a three-digit octal escape. -/
def escapeChar (c : Char) : String :=
  if 32 ≤ c.toNat ∧ c.toNat ≤ 126 ∧ c ≠ '\\' ∧ c ≠ '"' then String.mk [c]
  else if c = '"' then "\\\""
  else if c = '\\' then "\\\\"
  else if c = '\t' then "\\t"
  else if c = '\r' then "\\r"
  else if c = '\n' then "\\n"
  else "\\" ++ octal3 c.toNat

/-- Modelled from the spec: `StrEscape` applied to a whole string. -/
def StrEscape (s : String) : String :=
  strConcatMap escapeChar s.data

/-- Splitter for the self-delimiting name blob: cut at each NUL byte,
dropping a trailing fragment not closed by a NUL. -/
def splitNulAux (acc : List Char) : List Char → List (List Char)
  | [] => []
  | c :: rest =>
    if c = '\x00' then acc :: splitNulAux [] rest
    else splitNulAux (acc ++ [c]) rest

/-- Decode the (unescaped) registry name blob back into the name sequence:
split at the terminating NUL bytes. -/
def decodeNames (s : String) : List String :=
  (splitNulAux [] s.data).map String.mk

/-- One `extern` forward declaration emitted per function name by
`CreateFuncRegistry`, with the fixed five-argument signature. -/
def fwdDeclLine (fname : String) : String :=
  "extern \"C\" TVM_DLL int32_t " ++ fname ++
    "(TVMValue* args, int* type_code, int num_args, TVMValue* out_value, int* out_type_code);\n"

/-- One entry of the static function-pointer array, cast to
`TVMBackendPackedCFunc`, emitted per function name. -/
def funcArrayLine (fname : String) : String :=
  "    (TVMBackendPackedCFunc)" ++ fname ++ ",\n"

/-- The registry record emitted after the pointer array: a
`TVMFuncRegistry` literal holding the escaped name blob and a reference to
`_tvm_func_array`. -/
def registryRecord (func_names : List String) : String :=
  "static const TVMFuncRegistry _tvm_func_registry = \x7b\n    \"" ++
    StrEscape (GenerateFuncRegistryNames func_names) ++
    "\",    _tvm_func_array,\n\x7d;\n"

/-- Embedding of `CSourceMetadataModuleNode::CreateFuncRegistry` (lines 218-235):
include line, one `extern` declaration per name, the static pointer array
with one cast entry per name, then the registry record. -/
def CreateFuncRegistry (func_names : List String) : String :=
  let code := "#include <tvm/runtime/crt/module.h>\n"
  let code := func_names.foldl (fun c fname => c ++ fwdDeclLine fname) code
  let code := code ++ "static TVMBackendPackedCFunc _tvm_func_array[] = \x7b\n"
  let code := func_names.foldl (fun c fname => c ++ funcArrayLine fname) code
  let code := code ++ "\x7d;\n"
  code ++ registryRecord func_names

/-- Embedding of `CSourceMetadataModuleNode::GenerateCrtSystemLib` (lines 237-244): the
fixed closing block exposing the singleton system-library descriptor and its
entry-point function. -/
def GenerateCrtSystemLib : String :=
  "static const TVMModule _tvm_system_lib = \x7b\n    &_tvm_func_registry,\n\x7d;\n" ++
  "const TVMModule* TVMSystemLibEntryPoint(void) \x7b\n    return &_tvm_system_lib;\n\x7d\n"

/-- Embedding of `CSourceMetadataModuleNode::CreateSource` (lines 246-252): emit the
function registry and the system-library block only when the target's
`system-lib` flag is set and the collected name list is non-empty; always
terminate with a single `";"`. -/
def CreateSource (target : Target) (func_names : List String) : String :=
  (if target.system_lib && !func_names.isEmpty then
    CreateFuncRegistry func_names ++ GenerateCrtSystemLib
  else "") ++ ";"

/-- The artifact tree produced by aggregation: leaf runtime modules, the
c-source metadata wrapper (`CSourceMetadataModuleNode`, whose constructor
runs `CreateSource`), and the binary metadata wrapper
(`runtime::MetadataModuleCreate`) carrying the constant table and the
aggregate symbol map.  `imports` are the owned children, in `Import` order. -/
inductive ModuleTree where
  | leaf (mod : Module)
  | csourceMeta (func_names : List String) (fmt : String) (code : String)
      (imports : List ModuleTree)
  | metadataModule (params : List (String × NDArrayData))
      (sym_metadata : List (String × List String)) (imports : List ModuleTree)

/-- The owned children of a tree node, in import order. -/
def treeImports : ModuleTree → List ModuleTree
  | .leaf _ => []
  | .csourceMeta _ _ _ imports => imports
  | .metadataModule _ _ imports => imports

/-- The collected function-name list of `CreateCSourceMetadataModule`
(lines 255-265): for each module exposing `get_func_names`, append its
names in order; modules lacking the capability contribute nothing. -/
def collectFuncNames (modules : List Module) : List String :=
  modules.foldl
    (fun acc mod =>
      match mod.get_func_names with
      | some ns => acc ++ ns
      | none => acc) []

/-- Embedding of `CreateCSourceMetadataModule` (lines 255-272): build the c-source
metadata wrapper over the collected function names (its constructor runs
`CreateSource` with format `"cc"`) and import every input module as a
child, in their original order. -/
def CreateCSourceMetadataModule (modules : List Module) (target : Target) : ModuleTree :=
  let func_names := collectFuncNames modules
  .csourceMeta func_names "cc" (CreateSource target func_names) (modules.map .leaf)

/-- Embedding of `CreateMetadataModule` (lines 55-107): classify the modules, wrap the
source group in the c-source metadata module, and, when the binary group is
non-empty, wrap everything in the binary metadata module that imports the
c-source wrapper first and then each binary-group module in order. -/
def CreateMetadataModule (params : List (String × NDArrayData))
    (modules : List Module) (target : Target) : Except AggError ModuleTree :=
  match classifyModules modules initClassState with
  | .error e => .error e
  | .ok st =>
    let c_meta_mod := CreateCSourceMetadataModule st.csource_metadata_modules target
    if st.binary_metadata_modules.isEmpty then
      .ok c_meta_mod
    else
      .ok (.metadataModule params st.sym_metadata
        (c_meta_mod :: st.binary_metadata_modules.map .leaf))

/-- Errors of the save-to-file path: the `ICHECK_EQ(fmt, fmt_)` format
mismatch and the `ICHECK_NE(code_.length(), 0)` empty-payload check. -/
inductive SaveError where
  | formatMismatch (declared got : String)
  | emptyPayload
deriving DecidableEq, Repr

/-- Modelled from the spec: `GetFileFormat` (`runtime/file_utils`, outside
`src/`): resolve the save format — a non-empty format hint is used verbatim,
an empty hint falls back to the file name's suffix after the last dot. -/
def GetFileFormat (file_name format : String) : String :=
  if format = "" then ((file_name.splitOn ".").getLast?).getD ""
  else format

/-- The `"source"` leaf module: plain text payload and a format tag. -/
structure SourceModuleNode where
  code_ : String
  fmt_ : String

/-- Embedding of `SourceModuleNode::GetSource` (line 121): always return the stored
payload, ignoring the format argument. -/
def SourceModuleNode.GetSource (m : SourceModuleNode) (format : String) : String :=
  m.code_

/-- The `"c"` source leaf module (`CSourceModuleNode`): payload, declared
format, and the capability data answered through `GetFunction`. -/
structure CSourceModuleNode where
  code_ : String
  fmt_ : String
  symbol_ : String
  const_vars_ : List String
  func_names_ : List String
deriving DecidableEq, Repr

/-- Embedding of `CSourceModuleNode::GetSource` (line 157): always return the stored
payload, ignoring the format argument. -/
def CSourceModuleNode.GetSource (m : CSourceModuleNode) (format : String) : String :=
  m.code_

/-- Embedding of `CSourceModuleNode::SaveToFile` (lines 159-168): resolve the format; on
`"cc"` require a non-empty payload and write the payload bytes to the file;
on any other resolved format require it to equal the declared format, in
which case nothing is written, and fail with a format mismatch otherwise.
The returned list is the sequence of (path, bytes) writes performed. -/
def CSourceModuleNode.SaveToFile (m : CSourceModuleNode) (file_name format : String) :
    Except SaveError (List (String × String)) :=
  let fmt := GetFileFormat file_name format
  if fmt = "cc" then
    if m.code_.length ≠ 0 then .ok [(file_name, m.code_)]
    else .error .emptyPayload
  else if fmt = m.fmt_ then .ok []
  else .error (.formatMismatch m.fmt_ fmt)

/-- Modelled from the spec: `runtime::FunctionInfo` (`runtime/meta_data.h`,
outside `src/`): per-function shape/argument metadata, opaque to this
system. -/
structure FunctionInfo where
  name : String
  arg_types : List String
  thread_axis_tags : List String
deriving DecidableEq, Repr

/-- One value written to the persistence byte stream: a string field or the
per-function metadata map. -/
inductive StreamItem where
  | str (s : String)
  | fmap (m : List (String × FunctionInfo))
deriving DecidableEq, Repr

/-- The opaque/binary leaf module (`DeviceSourceModuleNode`): payload,
declared format, per-function metadata map, its runtime type key, and the
optional custom render callback supplied at construction. -/
structure DeviceSourceModuleNode where
  data_ : String
  fmt_ : String
  fmap_ : List (String × FunctionInfo)
  type_key_ : String
  fget_source_ : Option (String → String)

/-- Embedding of `DeviceSourceModuleNode::GetSource` (lines 288-294): when a custom
render callback was supplied, return its result on the format argument;
otherwise return the stored payload. -/
def DeviceSourceModuleNode.GetSource (m : DeviceSourceModuleNode) (format : String) : String :=
  match m.fget_source_ with
  | some f => f format
  | none => m.data_

/-- Embedding of `DeviceSourceModuleNode::SaveToBinary` (lines 306-310): write the
declared format, the function metadata map, and the raw payload to the
stream, in that order. -/
def DeviceSourceModuleNode.SaveToBinary (m : DeviceSourceModuleNode) : List StreamItem :=
  [.str m.fmt_, .fmap m.fmap_, .str m.data_]

/-- Modelled from the spec: the symmetric deserialization of an opaque
leaf (its loader lives outside `src/`): read back the format, the function
metadata map and the payload, in that order; any other stream shape fails.
The reconstructed leaf carries no render callback. -/
def LoadFromBinary (stream : List StreamItem) : Option DeviceSourceModuleNode :=
  match stream with
  | [.str fmt, .fmap fm, .str data] => some ⟨data, fmt, fm, "", none⟩
  | _ => none

/-! ## Helper lemmas -/

theorem foldl_append_eq_concatMap {α : Type} (f : α → String) (l : List α) :
    ∀ init : String, l.foldl (fun c x => c ++ f x) init = init ++ strConcatMap f l := by
  induction l with
  | nil => intro init; simp [strConcatMap, String.append_empty]
  | cons x xs ih => intro init; simp [strConcatMap, ih, String.append_assoc]

theorem CreateFuncRegistry_eq (func_names : List String) :
    CreateFuncRegistry func_names =
      "#include <tvm/runtime/crt/module.h>\n" ++ strConcatMap fwdDeclLine func_names ++
        "static TVMBackendPackedCFunc _tvm_func_array[] = \x7b\n" ++
        strConcatMap funcArrayLine func_names ++ "\x7d;\n" ++
        registryRecord func_names := by
  simp [CreateFuncRegistry, foldl_append_eq_concatMap, String.append_assoc]

theorem collectFuncNames_foldl (l : List Module) :
    ∀ acc : List String,
      l.foldl
        (fun acc mod =>
          match mod.get_func_names with
          | some ns => acc ++ ns
          | none => acc) acc
      = acc ++ (l.map fun m => m.get_func_names.getD []).flatten := by
  induction l with
  | nil => intro acc; simp
  | cons m xs ih =>
    intro acc
    cases h : m.get_func_names <;> simp [h, ih, List.append_assoc]

theorem splitNulAux_encode (n : List Char) (hn : '\x00' ∉ n) :
    ∀ acc rest : List Char,
      splitNulAux acc (n ++ '\x00' :: rest) = (acc ++ n) :: splitNulAux [] rest := by
  induction n with
  | nil => intro acc rest; simp [splitNulAux]
  | cons c cs ih =>
    intro acc rest
    have hc : ¬ c = '\x00' := fun h => hn (h ▸ List.mem_cons_self c cs)
    have hcs : '\x00' ∉ cs := fun h => hn (List.mem_cons_of_mem c h)
    simp [splitNulAux, hc, ih hcs, List.append_assoc]

theorem decodeNames_encode (names : List String)
    (h : ∀ n ∈ names, '\x00' ∉ n.data) :
    decodeNames (GenerateFuncRegistryNames names) = names := by
  induction names with
  | nil => rfl
  | cons n ns ih =>
    have hn : '\x00' ∉ n.data := h n (List.mem_cons_self n ns)
    have hns : ∀ m ∈ ns, '\x00' ∉ m.data := fun m hm => h m (List.mem_cons_of_mem n hm)
    show (splitNulAux [] (GenerateFuncRegistryNames (n :: ns)).data).map String.mk = n :: ns
    have hdata : (GenerateFuncRegistryNames (n :: ns)).data
        = n.data ++ '\x00' :: (GenerateFuncRegistryNames ns).data := by
      show ((n ++ String.mk ['\x00']) ++ GenerateFuncRegistryNames ns).data
        = n.data ++ '\x00' :: (GenerateFuncRegistryNames ns).data
      simp [String.data_append, List.append_assoc]
    rw [hdata, splitNulAux_encode n.data hn]
    simp only [List.nil_append, List.map_cons]
    show String.mk n.data :: decodeNames (GenerateFuncRegistryNames ns) = n :: ns
    rw [ih hns]

/-! ## Claims about the generated registry text (C4, C5, C6) -/

/-- C4: the metadata wrapper builder's collected function-name list equals
the concatenation, in traversal order, of the callable-function-name lists
of every source-group module exposing the capability (modules lacking it
contribute nothing), and the wrapper imports every source-group module as a
child in their original order. -/
theorem c4_collect_and_children (modules : List Module) (target : Target) :
    collectFuncNames modules
      = (modules.map fun m => m.get_func_names.getD []).flatten ∧
    treeImports (CreateCSourceMetadataModule modules target)
      = modules.map ModuleTree.leaf := by
  refine ⟨?_, rfl⟩
  simpa using collectFuncNames_foldl modules []

/-- C5: in system-library mode with a non-empty function-name list the
generated text is exactly the include line, one extern forward declaration
per name with the fixed five-argument signature in input order, the static
pointer array with one cast entry per name in the same order, the registry
record over the escaped name blob, and the system-library block before the
terminator; the name blob decodes back to the input list, and the
declaration and array-entry sequences have exactly one element per name. -/
theorem c5_registry_text (target : Target) (func_names : List String)
    (hsys : target.system_lib = true) (hne : func_names ≠ [])
    (hnul : ∀ n ∈ func_names, '\x00' ∉ n.data) :
    CreateSource target func_names
      = "#include <tvm/runtime/crt/module.h>\n" ++ strConcatMap fwdDeclLine func_names ++
        "static TVMBackendPackedCFunc _tvm_func_array[] = \x7b\n" ++
        strConcatMap funcArrayLine func_names ++ "\x7d;\n" ++
        registryRecord func_names ++ GenerateCrtSystemLib ++ ";" ∧
    decodeNames (GenerateFuncRegistryNames func_names) = func_names ∧
    (func_names.map fwdDeclLine).length = func_names.length ∧
    (func_names.map funcArrayLine).length = func_names.length := by
  refine ⟨?_, decodeNames_encode func_names hnul, by simp, by simp⟩
  have hempty : func_names.isEmpty = false := by
    cases func_names with
    | nil => exact absurd rfl hne
    | cons a l => rfl
  simp [CreateSource, hsys, hempty, CreateFuncRegistry_eq, String.append_assoc]

/-- Witness for C5 at the concrete name list `["f1", "f2"]`. -/
theorem c5_witness :
    decodeNames (GenerateFuncRegistryNames ["f1", "f2"]) = ["f1", "f2"] ∧
    (["f1", "f2"].map fwdDeclLine).length = 2 :=
  ⟨(c5_registry_text ⟨true⟩ ["f1", "f2"] rfl (by decide) (by decide)).2.1,
   (c5_registry_text ⟨true⟩ ["f1", "f2"] rfl (by decide) (by decide)).2.2.1⟩

/-- C6: the generated metadata source equals the single terminating `";"`
exactly when the target's system-library flag is unset or the collected
name list is empty, and the generated text is never empty. -/
theorem c6_minimal_terminator (target : Target) (func_names : List String) :
    (CreateSource target func_names = ";" ↔
      (target.system_lib = false ∨ func_names = [])) ∧
    CreateSource target func_names ≠ "" := by
  by_cases hsys : target.system_lib = true
  · cases func_names with
    | nil =>
      constructor
      · simp [CreateSource]
      · simp [CreateSource]
    | cons n ns =>
      have hform : CreateSource target (n :: ns)
          = CreateFuncRegistry (n :: ns) ++ GenerateCrtSystemLib ++ ";" := by
        simp [CreateSource, hsys]
      have h36 : ("#include <tvm/runtime/crt/module.h>\n" : String).length = 36 := by decide
      have hlen : 36 ≤ (CreateSource target (n :: ns)).length := by
        rw [hform, CreateFuncRegistry_eq]
        simp only [String.length_append, h36]
        omega
      constructor
      · constructor
        · intro h
          rw [h] at hlen
          exact absurd hlen (by decide)
        · intro h
          rcases h with h | h
          · rw [hsys] at h; exact absurd h (by decide)
          · exact absurd h (by simp)
      · intro h
        rw [h] at hlen
        exact absurd hlen (by decide)
  · have hfalse : target.system_lib = false := by
      cases htk : target.system_lib
      · rfl
      · exact absurd htk hsys
    constructor
    · simp [CreateSource, hfalse]
    · simp [CreateSource, hfalse]

/-! ## Claims about the leaf modules (C7, C8, C9) -/

/-- C7: saving a non-empty C source leaf with a hint resolving to the
canonical textual format `"cc"` succeeds and writes exactly the payload
bytes; a hint resolving neither to `"cc"` nor to the declared format fails
with a format mismatch and performs no write. -/
theorem c7_save_to_file (m : CSourceModuleNode) (file_name format : String)
    (hne : m.code_ ≠ "") :
    (GetFileFormat file_name format = "cc" →
      m.SaveToFile file_name format = .ok [(file_name, m.code_)]) ∧
    (GetFileFormat file_name format ≠ "cc" →
      GetFileFormat file_name format ≠ m.fmt_ →
      m.SaveToFile file_name format
        = .error (.formatMismatch m.fmt_ (GetFileFormat file_name format))) := by
  have hlen : m.code_.length ≠ 0 := by
    intro h0
    exact hne (by
      cases hm : m.code_ with
      | mk l =>
        cases l with
        | nil => rfl
        | cons c cs => rw [hm] at h0; simp [String.length] at h0)
  constructor
  · intro h
    simp [CSourceModuleNode.SaveToFile, h, hlen]
  · intro h1 h2
    simp [CSourceModuleNode.SaveToFile, h1, h2]

/-- Witness for C7 at a concrete artifact: hint `"cc"` succeeds writing the
payload, hint `"bin"` against declared format `"cc"` fails with a
mismatch. -/
theorem c7_witness :
    CSourceModuleNode.SaveToFile ⟨"int x;", "cc", "s", [], []⟩ "out.cc" "cc"
      = .ok [("out.cc", "int x;")] ∧
    CSourceModuleNode.SaveToFile ⟨"int x;", "cc", "s", [], []⟩ "out.cc" "bin"
      = .error (.formatMismatch "cc" "bin") :=
  ⟨(c7_save_to_file ⟨"int x;", "cc", "s", [], []⟩ "out.cc" "cc" (by decide)).1 rfl,
   (c7_save_to_file ⟨"int x;", "cc", "s", [], []⟩ "out.cc" "bin" (by decide)).2
     (by decide) (by decide)⟩

/-- C8: serializing an opaque leaf writes exactly the ordered triple
(declared format, per-function metadata map, raw payload) in that order,
and deserializing the just-serialized stream yields a leaf with identical
format, metadata map and payload. -/
theorem c8_round_trip (m : DeviceSourceModuleNode) :
    m.SaveToBinary = [.str m.fmt_, .fmap m.fmap_, .str m.data_] ∧
    ∃ m' : DeviceSourceModuleNode,
      LoadFromBinary m.SaveToBinary = some m' ∧
      m'.fmt_ = m.fmt_ ∧ m'.fmap_ = m.fmap_ ∧ m'.data_ = m.data_ :=
  ⟨rfl, ⟨⟨m.data_, m.fmt_, m.fmap_, "", none⟩, rfl, rfl, rfl, rfl⟩⟩

/-- A device-source leaf whose render callback echoes the format hint. -/
def formatEchoModule : DeviceSourceModuleNode :=
  ⟨"payload", "cu", [], "cuda", some (fun format => format)⟩

/-- C9 counterexample: a leaf built with a custom render callback that
echoes the format hint returns different text for different hints, so
`GetSource` does not always ignore the format hint. -/
theorem c9_counterexample :
    DeviceSourceModuleNode.GetSource formatEchoModule "a"
      ≠ DeviceSourceModuleNode.GetSource formatEchoModule "b" := by
  decide

/-- C9 (amended): `GetSource` of a plain source leaf or C source leaf always
returns the stored payload regardless of the format hint; a device-source
leaf without a render callback likewise returns the stored payload for every
hint; when a render callback was supplied, `GetSource` returns the callback
applied to the format hint, so the text may depend on the hint. -/
theorem c9_get_source_amended :
    (∀ (m : SourceModuleNode) (f1 f2 : String),
      m.GetSource f1 = m.code_ ∧ m.GetSource f1 = m.GetSource f2) ∧
    (∀ (m : CSourceModuleNode) (f1 f2 : String),
      m.GetSource f1 = m.code_ ∧ m.GetSource f1 = m.GetSource f2) ∧
    (∀ (m : DeviceSourceModuleNode) (f1 f2 : String), m.fget_source_ = none →
      m.GetSource f1 = m.data_ ∧ m.GetSource f1 = m.GetSource f2) ∧
    (∀ (m : DeviceSourceModuleNode) (g : String → String) (format : String),
      m.fget_source_ = some g → m.GetSource format = g format) := by
  refine ⟨fun m f1 f2 => ⟨rfl, rfl⟩, fun m f1 f2 => ⟨rfl, rfl⟩, ?_, ?_⟩
  · intro m f1 f2 h
    constructor <;> simp [DeviceSourceModuleNode.GetSource, h]
  · intro m g format h
    simp [DeviceSourceModuleNode.GetSource, h]

/-- Witness for the amended C9 at concrete leaves. -/
theorem c9_witness :
    DeviceSourceModuleNode.GetSource ⟨"d", "f", [], "k", none⟩ "x" = "d" ∧
    DeviceSourceModuleNode.GetSource formatEchoModule "x" = "x" :=
  ⟨(c9_get_source_amended.2.2.1 ⟨"d", "f", [], "k", none⟩ "x" "y" rfl).1,
   c9_get_source_amended.2.2.2 formatEchoModule (fun format => format) "x" rfl⟩

/-! ## Classification lemmas -/

theorem symCount_append (l1 l2 : List (String × List String)) (s : String) :
    symCount (l1 ++ l2) s = symCount l1 s + symCount l2 s := by
  simp [symCount, List.filter_append]

theorem symCount_singleton_self (s : String) (vs : List String) :
    symCount [(s, vs)] s = 1 := by
  simp [symCount]

theorem classify_cons_none (mod : Module) (rest : List Module) (st : ClassState)
    (hp : probeSymConst mod = none) :
    classifyModules (mod :: rest) st = classifyModules rest
      { st with csource_metadata_modules := st.csource_metadata_modules ++ [mod] } := by
  simp [classifyModules, hp]

theorem classify_cons_dup (mod : Module) (rest : List Module) (st : ClassState)
    (sv : String × List String) (hp : probeSymConst mod = some sv)
    (hc : symCount st.sym_metadata sv.1 ≠ 0) :
    classifyModules (mod :: rest) st = .error (.duplicateSymbol sv.1) := by
  simp [classifyModules, hp, hc]

theorem classify_cons_binary (mod : Module) (rest : List Module) (st : ClassState)
    (sv : String × List String) (hp : probeSymConst mod = some sv)
    (hc : ¬ symCount st.sym_metadata sv.1 ≠ 0)
    (hb : (!sv.2.isEmpty || !DSOExportable mod) = true) :
    classifyModules (mod :: rest) st = classifyModules rest
      { st with
        sym_metadata := st.sym_metadata ++ [sv],
        binary_metadata_modules := st.binary_metadata_modules ++ [mod] } := by
  simp [classifyModules, hp, hc, hb]

theorem classify_cons_csource (mod : Module) (rest : List Module) (st : ClassState)
    (sv : String × List String) (hp : probeSymConst mod = some sv)
    (hc : ¬ symCount st.sym_metadata sv.1 ≠ 0)
    (hb : (!sv.2.isEmpty || !DSOExportable mod) = false) :
    classifyModules (mod :: rest) st = classifyModules rest
      { st with
        sym_metadata := st.sym_metadata ++ [sv],
        csource_metadata_modules := st.csource_metadata_modules ++ [mod] } := by
  simp [classifyModules, hp, hc, hb]

theorem classify_error_of_mem (mod : Module) (s : String) (vs : List String)
    (hp : probeSymConst mod = some (s, vs)) :
    ∀ (l : List Module) (st : ClassState), mod ∈ l → symCount st.sym_metadata s ≠ 0 →
      ∃ s', classifyModules l st = .error (.duplicateSymbol s') := by
  intro l
  induction l with
  | nil => intro st hmem _; exact absurd hmem (List.not_mem_nil mod)
  | cons m0 rest ih =>
    intro st hmem hcnt
    rcases List.mem_cons.mp hmem with heq | hmem'
    · subst heq
      exact ⟨s, classify_cons_dup mod rest st (s, vs) hp hcnt⟩
    · cases hp0 : probeSymConst m0 with
      | none =>
        rw [classify_cons_none m0 rest st hp0]
        exact ih _ hmem' hcnt
      | some sv =>
        by_cases hc : symCount st.sym_metadata sv.1 ≠ 0
        · exact ⟨sv.1, classify_cons_dup m0 rest st sv hp0 hc⟩
        · have hcnt' : symCount (st.sym_metadata ++ [sv]) s ≠ 0 := by
            rw [symCount_append]; omega
          cases hb : (!sv.2.isEmpty || !DSOExportable m0) with
          | true =>
            rw [classify_cons_binary m0 rest st sv hp0 hc hb]
            exact ih _ hmem' hcnt'
          | false =>
            rw [classify_cons_csource m0 rest st sv hp0 hc hb]
            exact ih _ hmem' hcnt'

theorem classify_error_of_duplicate (a b : Module) (mid post : List Module)
    (s : String) (va vb : List String)
    (ha : probeSymConst a = some (s, va)) (hb : probeSymConst b = some (s, vb)) :
    ∀ (pre : List Module) (st : ClassState),
      ∃ s', classifyModules (pre ++ a :: mid ++ b :: post) st
        = .error (.duplicateSymbol s') := by
  intro pre
  induction pre with
  | nil =>
    intro st
    show ∃ s', classifyModules (a :: (mid ++ b :: post)) st = .error (.duplicateSymbol s')
    by_cases hc : symCount st.sym_metadata s ≠ 0
    · exact ⟨s, classify_cons_dup a _ st (s, va) ha hc⟩
    · have hbmem : b ∈ mid ++ b :: post :=
        List.mem_append_right mid (List.mem_cons_self b post)
      have hcnt' : symCount (st.sym_metadata ++ [(s, va)]) s ≠ 0 := by
        rw [symCount_append, symCount_singleton_self]; omega
      cases hbr : (!va.isEmpty || !DSOExportable a) with
      | true =>
        rw [classify_cons_binary a _ st (s, va) ha hc hbr]
        exact classify_error_of_mem b s vb hb _ _ hbmem hcnt'
      | false =>
        rw [classify_cons_csource a _ st (s, va) ha hc hbr]
        exact classify_error_of_mem b s vb hb _ _ hbmem hcnt'
  | cons p pre' ih =>
    intro st
    show ∃ s', classifyModules (p :: (pre' ++ a :: mid ++ b :: post)) st
      = .error (.duplicateSymbol s')
    cases hp0 : probeSymConst p with
    | none =>
      rw [classify_cons_none p _ st hp0]
      exact ih _
    | some sv =>
      by_cases hc : symCount st.sym_metadata sv.1 ≠ 0
      · exact ⟨sv.1, classify_cons_dup p _ st sv hp0 hc⟩
      · cases hbr : (!sv.2.isEmpty || !DSOExportable p) with
        | true =>
          rw [classify_cons_binary p _ st sv hp0 hc hbr]
          exact ih _
        | false =>
          rw [classify_cons_csource p _ st sv hp0 hc hbr]
          exact ih _

theorem classify_ok_spec :
    ∀ (l : List Module) (st st' : ClassState),
      classifyModules l st = .ok st' →
      st'.csource_metadata_modules
          = st.csource_metadata_modules ++ l.filter sourcePlaced ∧
      st'.binary_metadata_modules
          = st.binary_metadata_modules ++ l.filter binaryPlaced ∧
      st'.sym_metadata = st.sym_metadata ++ l.filterMap probeSymConst := by
  intro l
  induction l with
  | nil =>
    intro st st' h
    simp [classifyModules] at h
    subst h
    simp
  | cons m0 rest ih =>
    intro st st' h
    cases hp : probeSymConst m0 with
    | none =>
      rw [classify_cons_none m0 rest st hp] at h
      obtain ⟨h1, h2, h3⟩ := ih _ _ h
      refine ⟨?_, ?_, ?_⟩ <;>
        simp [h1, h2, h3, List.filter_cons, List.filterMap_cons, hp,
          sourcePlaced, binaryPlaced, List.append_assoc]
    | some sv =>
      by_cases hc : symCount st.sym_metadata sv.1 ≠ 0
      · rw [classify_cons_dup m0 rest st sv hp hc] at h
        cases h
      · cases hbr : (!sv.2.isEmpty || !DSOExportable m0) with
        | true =>
          rw [classify_cons_binary m0 rest st sv hp hc hbr] at h
          obtain ⟨h1, h2, h3⟩ := ih _ _ h
          have hsp : sourcePlaced m0 = false := by
            simp only [sourcePlaced, hp]
            revert hbr
            cases sv.2.isEmpty <;> cases DSOExportable m0 <;> simp
          have hbp : binaryPlaced m0 = true := by
            simp only [binaryPlaced, hp]
            exact hbr
          refine ⟨?_, ?_, ?_⟩ <;>
            simp [h1, h2, h3, List.filter_cons, List.filterMap_cons, hp, hsp, hbp,
              List.append_assoc]
        | false =>
          rw [classify_cons_csource m0 rest st sv hp hc hbr] at h
          obtain ⟨h1, h2, h3⟩ := ih _ _ h
          have hsp : sourcePlaced m0 = true := by
            simp only [sourcePlaced, hp]
            revert hbr
            cases sv.2.isEmpty <;> cases DSOExportable m0 <;> simp
          have hbp : binaryPlaced m0 = false := by
            simp only [binaryPlaced, hp]
            exact hbr
          refine ⟨?_, ?_, ?_⟩ <;>
            simp [h1, h2, h3, List.filter_cons, List.filterMap_cons, hp, hsp, hbp,
              List.append_assoc]

/-! ## Claims about aggregation (C1, C2, C3, C10) -/

/-- C1: if two modules that both support the symbol and constant-name
probes report the same exported symbol, aggregation fails with the fatal
duplicate-symbol error and returns no root module, wherever the two modules
sit in the input list and whatever group either would have been placed
in. -/
theorem c1_duplicate_symbol (params : List (String × NDArrayData)) (target : Target)
    (pre mid post : List Module) (a b : Module) (s : String) (va vb : List String)
    (ha : probeSymConst a = some (s, va)) (hb : probeSymConst b = some (s, vb)) :
    ∃ s', CreateMetadataModule params (pre ++ a :: mid ++ b :: post) target
      = .error (.duplicateSymbol s') := by
  obtain ⟨s', hs'⟩ :=
    classify_error_of_duplicate a b mid post s va vb ha hb pre initClassState
  refine ⟨s', ?_⟩
  unfold CreateMetadataModule
  rw [hs']

/-- Witness for C1: two modules exporting the symbol "k", one bound for
each group, abort aggregation. -/
theorem c1_witness :
    ∃ s', CreateMetadataModule []
      [⟨"c", some "k", some [], none⟩, ⟨"llvm", some "k", some ["w"], none⟩] ⟨false⟩
      = .error (.duplicateSymbol s') :=
  c1_duplicate_symbol [] ⟨false⟩ [] [] []
    ⟨"c", some "k", some [], none⟩ ⟨"llvm", some "k", some ["w"], none⟩
    "k" [] ["w"] rfl rfl

/-- C2: a module lacking the combined metadata probe is placed in the
source group; a probed module goes to the binary group exactly when its
required-constant list is non-empty or its kind is not directly linkable
("llvm" native object / "c" generated source), and to the source group
otherwise; the two groups are the order-preserving filters of the input by
these placement predicates. -/
theorem c2_classification (modules : List Module) (st : ClassState)
    (h : classifyModules modules initClassState = .ok st) :
    st.csource_metadata_modules = modules.filter sourcePlaced ∧
    st.binary_metadata_modules = modules.filter binaryPlaced ∧
    (∀ mod : Module, probeSymConst mod = none →
      sourcePlaced mod = true ∧ binaryPlaced mod = false) ∧
    (∀ (mod : Module) (s : String) (vs : List String),
      probeSymConst mod = some (s, vs) →
      binaryPlaced mod = (!vs.isEmpty || !DSOExportable mod) ∧
      sourcePlaced mod = (vs.isEmpty && DSOExportable mod)) := by
  obtain ⟨h1, h2, h3⟩ := classify_ok_spec modules initClassState st h
  refine ⟨by simpa [initClassState] using h1, by simpa [initClassState] using h2, ?_, ?_⟩
  · intro mod hmod
    simp [sourcePlaced, binaryPlaced, hmod]
  · intro mod s vs hmod
    simp [sourcePlaced, binaryPlaced, hmod]

/-- Concrete modules used by the aggregation witnesses: a directly linkable
module without constants, a directly linkable module requiring the constant
"w0", and a module that does not answer the metadata probe. -/
def modA : Module := ⟨"llvm", some "k1", some [], some ["add_1"]⟩

/-- Second witness module: directly linkable but requiring a constant. -/
def modB : Module := ⟨"llvm", some "k2", some ["w0"], some ["conv_1"]⟩

/-- Third witness module: no metadata probe support. -/
def modC : Module := ⟨"ext", none, none, some ["x"]⟩

/-- Witness for C2 on a three-module input covering all three placement
cases. -/
theorem c2_witness :
    classifyModules [modA, modB, modC] initClassState
      = .ok ⟨[("k1", []), ("k2", ["w0"])], [modA, modC], [modB]⟩ ∧
    (⟨[("k1", []), ("k2", ["w0"])], [modA, modC], [modB]⟩ : ClassState).csource_metadata_modules
      = [modA, modB, modC].filter sourcePlaced ∧
    (⟨[("k1", []), ("k2", ["w0"])], [modA, modC], [modB]⟩ : ClassState).binary_metadata_modules
      = [modA, modB, modC].filter binaryPlaced :=
  ⟨rfl,
   (c2_classification [modA, modB, modC] ⟨[("k1", []), ("k2", ["w0"])], [modA, modC], [modB]⟩ rfl).1,
   (c2_classification [modA, modB, modC] ⟨[("k1", []), ("k2", ["w0"])], [modA, modC], [modB]⟩ rfl).2.1⟩

/-- C3: when aggregation succeeds, the returned root is the c-source
wrapper over the source group when the binary group is empty; otherwise it
is the binary metadata wrapper carrying the constant table and the full
symbol-to-constants map, importing the source wrapper first and then every
binary-group module in their original input order. -/
theorem c3_composition (params : List (String × NDArrayData)) (modules : List Module)
    (target : Target) (root : ModuleTree)
    (h : CreateMetadataModule params modules target = .ok root) :
    (modules.filter binaryPlaced = [] →
      root = CreateCSourceMetadataModule (modules.filter sourcePlaced) target) ∧
    (modules.filter binaryPlaced ≠ [] →
      root = .metadataModule params (modules.filterMap probeSymConst)
        (CreateCSourceMetadataModule (modules.filter sourcePlaced) target
          :: (modules.filter binaryPlaced).map .leaf)) := by
  unfold CreateMetadataModule at h
  cases hcl : classifyModules modules initClassState with
  | error e => rw [hcl] at h; cases h
  | ok st =>
    rw [hcl] at h
    obtain ⟨h1, h2, h3⟩ := classify_ok_spec modules initClassState st hcl
    simp [initClassState] at h1 h2 h3
    constructor
    · intro hbe
      have hempty : st.binary_metadata_modules.isEmpty = true := by simp [h2, hbe]
      simp only [hempty, if_true] at h
      injection h with h
      subst h
      rw [h1]
    · intro hbne
      have hempty : st.binary_metadata_modules.isEmpty = false := by simp [h2, hbne]
      simp only [hempty, Bool.false_eq_true, if_false] at h
      injection h with h
      subst h
      rw [h1, h2, h3]

/-- Witness for C3 on a two-module input with a non-empty binary group. -/
theorem c3_witness :
    ∃ root, CreateMetadataModule [] [modA, modB] ⟨false⟩ = .ok root ∧
      root = ModuleTree.metadataModule [] ([modA, modB].filterMap probeSymConst)
        (CreateCSourceMetadataModule ([modA, modB].filter sourcePlaced) ⟨false⟩
          :: ([modA, modB].filter binaryPlaced).map .leaf) :=
  ⟨_, rfl, (c3_composition [] [modA, modB] ⟨false⟩ _ rfl).2 (by decide)⟩

theorem probeSymConst_eq_none (mod : Module)
    (h : mod.get_symbol = none ∨ mod.get_const_vars = none) :
    probeSymConst mod = none := by
  rcases h with h | h
  · simp [probeSymConst, h]
  · cases hs : mod.get_symbol <;> simp [probeSymConst, h, hs]

/-- C10: a module supporting exactly one of the two metadata probes —
the exported-symbol probe without the required-constant-names probe, or
vice versa — fails the combined probe, is placed in the source group and
contributes nothing to the aggregate symbol map; two such modules (in
particular two sharing the same exported symbol) therefore aggregate
without a duplicate-symbol error. -/
theorem c10_single_probe (params : List (String × NDArrayData)) (target : Target)
    (a b : Module)
    (ha : (a.get_symbol ≠ none ∧ a.get_const_vars = none) ∨
          (a.get_symbol = none ∧ a.get_const_vars ≠ none))
    (hb : (b.get_symbol ≠ none ∧ b.get_const_vars = none) ∨
          (b.get_symbol = none ∧ b.get_const_vars ≠ none)) :
    probeSymConst a = none ∧ probeSymConst b = none ∧
    sourcePlaced a = true ∧ sourcePlaced b = true ∧
    [a, b].filterMap probeSymConst = [] ∧
    (∃ st, classifyModules [a, b] initClassState = .ok st ∧
      st.csource_metadata_modules = [a, b] ∧
      st.binary_metadata_modules = [] ∧
      st.sym_metadata = []) ∧
    ∃ root, CreateMetadataModule params [a, b] target = .ok root := by
  have hpa : probeSymConst a = none := probeSymConst_eq_none a (by
    rcases ha with ⟨_, hv⟩ | ⟨hs, _⟩
    · exact Or.inr hv
    · exact Or.inl hs)
  have hpb : probeSymConst b = none := probeSymConst_eq_none b (by
    rcases hb with ⟨_, hv⟩ | ⟨hs, _⟩
    · exact Or.inr hv
    · exact Or.inl hs)
  have hcl : classifyModules [a, b] initClassState = .ok ⟨[], [a, b], []⟩ := by
    rw [show ([a, b] : List Module) = a :: [b] from rfl,
      classify_cons_none a [b] initClassState hpa,
      classify_cons_none b [] _ hpb]
    rfl
  refine ⟨hpa, hpb, by simp [sourcePlaced, hpa], by simp [sourcePlaced, hpb],
    by simp [hpa, hpb], ⟨⟨[], [a, b], []⟩, hcl, rfl, rfl, rfl⟩,
    CreateCSourceMetadataModule [a, b] target, ?_⟩
  unfold CreateMetadataModule
  rw [hcl]
  rfl

/-- Witness for C10, covering both probe orientations: two symbol-only
modules sharing the exported symbol "k" aggregate successfully, and so do
a symbol-only module and a constants-only module. -/
theorem c10_witness :
    (∃ root, CreateMetadataModule []
      [⟨"c", some "k", none, none⟩, ⟨"ext", some "k", none, some ["f"]⟩] ⟨false⟩
      = .ok root) ∧
    (∃ root, CreateMetadataModule []
      [⟨"c", some "k", none, none⟩, ⟨"ext", none, some ["w"], some ["f"]⟩] ⟨false⟩
      = .ok root) :=
  ⟨(c10_single_probe [] ⟨false⟩
      ⟨"c", some "k", none, none⟩ ⟨"ext", some "k", none, some ["f"]⟩
      (Or.inl ⟨by simp, rfl⟩) (Or.inl ⟨by simp, rfl⟩)).2.2.2.2.2.2,
   (c10_single_probe [] ⟨false⟩
      ⟨"c", some "k", none, none⟩ ⟨"ext", none, some ["w"], some ["f"]⟩
      (Or.inl ⟨by simp, rfl⟩) (Or.inr ⟨rfl, by simp⟩)).2.2.2.2.2.2⟩

end SourceModule
